import Mathlib

/-!
Verification of the analyzer in `happiness_analyzer.py` (class
`HappinessAnalyzer`) against its natural-language specification.

Shallow embedding conventions:
* a numeric matrix cell is `Option ℚ`: `some q` is a real value, `none` is
  the NaN / MISSING sentinel that NumPy propagates (a failed `float(...)`
  parse stores `np.nan`);
* Python exceptions are modelled with `Except Err`; a `.error` result is a
  raised exception, an `.ok` result is a normal return;
* floating-point values are modelled as rationals.  The two irrational
  quantities of the source (`np.std`, the z-score) are carried as their
  squares, which determine them: `std = sqrt std_sq` and the comparisons the
  source makes with them are translated through the square (the square root
  is monotone on nonnegatives).
-/

/-- Python/NumPy exceptions raised by the analyzer. -/
inductive Err where
  /-- dict lookup miss, from `self.column_map[column_name]`. -/
  | keyError
  /-- from `list.index`, from `np.min`/`np.max` of an empty array, and from
  `np.array` applied to ragged rows. -/
  | valueError
  /-- ndarray index out of range, and `.shape[1]` of a 1-d array. -/
  | indexError
  /-- `next(reader)` on a file with no rows. -/
  | stopIteration
deriving DecidableEq, Repr

/-- A matrix cell: `some q`, or `none` for NaN / MISSING. -/
abbrev Val := Option ℚ

instance {ε α : Type _} [DecidableEq ε] [DecidableEq α] :
    DecidableEq (Except ε α) := fun a b =>
  match a, b with
  | .error e, .error f =>
    if h : e = f then .isTrue (by rw [h])
    else .isFalse (by intro hh; cases hh; exact h rfl)
  | .error _, .ok _ => .isFalse (by intro hh; cases hh)
  | .ok _, .error _ => .isFalse (by intro hh; cases hh)
  | .ok x, .ok y =>
    if h : x = y then .isTrue (by rw [h])
    else .isFalse (by intro hh; cases hh; exact h rfl)

/-- The state built by `HappinessAnalyzer.load_data` and read by every query. -/
structure Dataset where
  /-- `self.headers`: the raw header record. -/
  headers : List String
  /-- `self.country_names`, one per admitted row. -/
  country_names : List String
  /-- `self.regional_indicators`, one per admitted row. -/
  regional_indicators : List String
  /-- `self.column_map`: header name to raw header position.  A Python dict:
  a duplicated header keeps the last position. -/
  column_map : String → Option ℕ
  /-- `self.data`: the numeric matrix, row major. -/
  data : List (List Val)
  /-- the column count of `self.data` (a NumPy array carries its shape). -/
  cols : ℕ

/-- Shape facts NumPy guarantees for a loaded dataset: the matrix is
rectangular and the name and label arrays are parallel to its rows. -/
def Dataset.WF (d : Dataset) : Prop :=
  (∀ r ∈ d.data, r.length = d.cols) ∧
  d.country_names.length = d.data.length ∧
  d.regional_indicators.length = d.data.length

/-- Python `list.index` as a total lookup: position of the first exact match,
`none` where `list.index` raises ValueError. -/
def listIndex (s : String) : List String → Option ℕ
  | [] => none
  | x :: t => if x = s then some 0 else (listIndex s t).map (· + 1)

/-- The loop `for i, header in enumerate(self.headers): self.column_map[header] = i`,
starting at position `i`: a later duplicate overwrites an earlier one. -/
def buildMapFrom (i : ℕ) : List String → String → Option ℕ
  | [], _ => none
  | h :: t, s =>
    match buildMapFrom (i + 1) t s with
    | some j => some j
    | none => if h = s then some i else none

/-- `self.column_map` as built by `load_data`. -/
def buildMap (headers : List String) : String → Option ℕ :=
  buildMapFrom 0 headers

/-- NumPy axis indexing: a negative index counts from the end; out of range
raises IndexError. -/
def npIndex (size : ℕ) (i : ℤ) : Except Err ℕ :=
  if 0 ≤ i then
    if i < (size : ℤ) then .ok i.toNat else .error .indexError
  else
    if 0 ≤ (size : ℤ) + i then .ok ((size : ℤ) + i).toNat else .error .indexError

/-- `load_data`, over already-tokenized CSV records (the csv reader is an
external collaborator; a record is the list of fields of one line).
Parametrized by the numeric field parser `parse`, modelling Python
`float(...)`: `none` is a parse failure, which the source stores as `np.nan`
(a literal `"nan"` field, which `float` accepts, is also `none`: it denotes
the same NaN cell).  `next(reader)` raises StopIteration on a file with no
records; `np.array` raises ValueError on ragged admitted rows; the load-time
summary evaluates `self.data.shape[1]`, which raises IndexError when no row
was admitted, because `np.array([])` is 1-dimensional. -/
def load_data (parse : String → Option ℚ) (records : List (List String)) :
    Except Err Dataset :=
  match records with
  | [] => .error .stopIteration
  | headers :: rest =>
    -- `if row and len(row) > 2`: admit exactly the rows with more than 2 fields
    let admitted := rest.filter (fun row => 2 < row.length)
    let rows := admitted.map (fun r => (r.drop 2).map parse)
    match rows with
    | [] => .error .indexError
    | r0 :: _ =>
      if rows.all (fun r => r.length = r0.length) then
        .ok { headers := headers,
              country_names := admitted.map (fun r => r.getD 0 ""),
              regional_indicators := admitted.map (fun r => r.getD 1 ""),
              column_map := buildMap headers,
              data := rows,
              cols := r0.length }
      else .error .valueError

/-- `get_column_index`: `self.column_map[column_name] - 2`; an unknown name
raises KeyError. -/
def get_column_index (d : Dataset) (column_name : String) : Except Err ℤ :=
  match d.column_map column_name with
  | none => .error .keyError
  | some i => .ok ((i : ℤ) - 2)

/-- A column slice `self.data[:, idx]` (NumPy negative indexing applies). -/
def getColumn (d : Dataset) (idx : ℤ) : Except Err (List Val) :=
  match npIndex d.cols idx with
  | .error e => .error e
  | .ok j => .ok (d.data.map (fun r => r.getD j none))

/-- A cell `self.data[r, idx]`. -/
def getCell (d : Dataset) (r : ℕ) (idx : ℤ) : Except Err Val :=
  match npIndex d.cols idx with
  | .error e => .error e
  | .ok j =>
    if r < d.data.length then .ok ((d.data.getD r []).getD j none)
    else .error .indexError

/-- `np.mean` of a nonempty array (callers guard the empty case, where NumPy
produces NaN without raising). -/
def npMean (xs : List ℚ) : ℚ := xs.sum / xs.length

/-- `np.median`: the middle of the sorted values, or the mean of the two
middles for an even length (nonempty input; callers guard the empty case). -/
def npMedian (xs : List ℚ) : ℚ :=
  let s := List.insertionSort (· ≤ ·) xs
  if xs.length % 2 = 1 then s.getD (xs.length / 2) 0
  else (s.getD (xs.length / 2 - 1) 0 + s.getD (xs.length / 2) 0) / 2

/-- Sum of squared deviations from the mean. -/
def ssd (xs : List ℚ) : ℚ := (xs.map (fun x => (x - npMean xs) ^ 2)).sum

/-- The square of `np.std` with its default `ddof = 0`: the mean of the
squared deviations.  The std the source reports is the square root of this. -/
def npStdSq (xs : List ℚ) : ℚ := npMean (xs.map (fun x => (x - npMean xs) ^ 2))

/-- `np.min` of a nonempty array (on an empty array `np.min` raises
ValueError; callers model that branch explicitly). -/
def npMin : List ℚ → ℚ
  | [] => 0
  | x :: t => t.foldl min x

/-- `np.max` of a nonempty array (see `npMin`). -/
def npMax : List ℚ → ℚ
  | [] => 0
  | x :: t => t.foldl max x

/-- The dictionary returned by `get_basic_statistics` (`std_sq` carries the
square of the reported std, see the file header). -/
structure Stats where
  mean : ℚ
  median : ℚ
  std_sq : ℚ
  min : ℚ
  max : ℚ
  count : ℕ
deriving DecidableEq, Repr

/-- `get_basic_statistics`: statistics of one column with NaN cells removed
first.  On an all-NaN column `np.mean`, `np.median` and `np.std` of the empty
clean array only warn and produce NaN, but `np.min` raises ValueError, so the
function raises instead of returning. -/
def get_basic_statistics (d : Dataset) (column_name : String) :
    Except Err Stats :=
  match get_column_index d column_name with
  | .error e => .error e
  | .ok i =>
    match getColumn d i with
    | .error e => .error e
    | .ok column_data =>
      let clean_data := column_data.filterMap id
      if clean_data = [] then .error .valueError
      else
        .ok { mean := npMean clean_data,
              median := npMedian clean_data,
              std_sq := npStdSq clean_data,
              min := npMin clean_data,
              max := npMax clean_data,
              count := clean_data.length }

/-- The valid entries of a column as (row index, value) pairs in row order:
models the boolean-mask compaction `values[~np.isnan(values)]` (and the
parallel compaction of the country names), keeping the source row of each
surviving entry.  Positions in the compacted array are ordered exactly like
the row indices. -/
def validEnum (col : List Val) : List (ℕ × ℚ) :=
  col.enum.filterMap (fun p => p.2.map (fun q => (p.1, q)))

/-- The comparison underlying a stable ascending `np.argsort` over the
compacted values: by value, ties by compacted position (equivalently, by row
index).  The default NumPy quicksort coincides with this stable order on
arrays of fewer than 16 elements, where it runs insertion sort, and on
tie-free arrays; on larger tied arrays its tie order is implementation
defined and this model fixes the stable outcome. -/
def argsortLe (a b : ℕ × ℚ) : Prop :=
  a.2 < b.2 ∨ (a.2 = b.2 ∧ a.1 ≤ b.1)

instance : DecidableRel argsortLe := fun a b => by
  unfold argsortLe; infer_instance

instance : IsTotal (ℕ × ℚ) argsortLe := by
  constructor
  intro a b
  rcases lt_trichotomy a.2 b.2 with h | h | h
  · exact Or.inl (Or.inl h)
  · rcases Nat.le_total a.1 b.1 with h1 | h1
    · exact Or.inl (Or.inr ⟨h, h1⟩)
    · exact Or.inr (Or.inr ⟨h.symm, h1⟩)
  · exact Or.inr (Or.inl h)

instance : IsTrans (ℕ × ℚ) argsortLe := by
  constructor
  intro a b c hab hbc
  rcases hab with h1 | ⟨h1, h1n⟩
  · rcases hbc with h2 | ⟨h2, _⟩
    · exact Or.inl (lt_trans h1 h2)
    · exact Or.inl (h2 ▸ h1)
  · rcases hbc with h2 | ⟨h2, h2n⟩
    · exact Or.inl (h1 ▸ h2)
    · exact Or.inr ⟨h1.trans h2, h1n.trans h2n⟩

instance : IsAntisymm (ℕ × ℚ) argsortLe := by
  constructor
  intro a b hab hba
  rcases hab with h1 | ⟨h1, h1n⟩
  · rcases hba with h2 | ⟨h2, _⟩
    · exact absurd (lt_trans h1 h2) (lt_irrefl _)
    · exact absurd h1 (h2 ▸ lt_irrefl _)
  · rcases hba with h2 | ⟨h2, h2n⟩
    · exact absurd h2 (h1 ▸ lt_irrefl _)
    · exact Prod.ext (Nat.le_antisymm h1n h2n) h1

/-- `np.argsort(valid_values)` realized on the (row, value) pairs, ascending
with the stable tie order. -/
def sortedValid (col : List Val) : List (ℕ × ℚ) :=
  List.insertionSort argsortLe (validEnum col)

/-- `np.argsort(valid_values)[::-1][:n]` of `get_top_countries`, as pairs. -/
def topPairs (col : List Val) (n : ℕ) : List (ℕ × ℚ) :=
  (sortedValid col).reverse.take n

/-- `np.argsort(valid_values)[:n]` of `get_bottom_countries`, as pairs. -/
def bottomPairs (col : List Val) (n : ℕ) : List (ℕ × ℚ) :=
  (sortedValid col).take n

/-- `get_top_countries`: NaN cells dropped, argsort ascending, reversed,
first `n`, each index paired with its country name. -/
def get_top_countries (d : Dataset) (column_name : String) (n : ℕ) :
    Except Err (List (String × ℚ)) :=
  match get_column_index d column_name with
  | .error e => .error e
  | .ok i =>
    match getColumn d i with
    | .error e => .error e
    | .ok values =>
      .ok ((topPairs values n).map (fun p => (d.country_names.getD p.1 "", p.2)))

/-- `get_bottom_countries`: NaN cells dropped, argsort ascending, first `n`. -/
def get_bottom_countries (d : Dataset) (column_name : String) (n : ℕ) :
    Except Err (List (String × ℚ)) :=
  match get_column_index d column_name with
  | .error e => .error e
  | .ok i =>
    match getColumn d i with
    | .error e => .error e
    | .ok values =>
      .ok ((bottomPairs values n).map (fun p => (d.country_names.getD p.1 "", p.2)))

/-- `filter_by_region`: the rows whose regional indicator equals `region`, in
row order, as (names, sub-matrix). -/
def filter_by_region (d : Dataset) (region : String) :
    List String × List (List Val) :=
  let indices :=
    (d.regional_indicators.enum.filter (fun p => p.2 = region)).map (fun p => p.1)
  (indices.map (fun i => d.country_names.getD i ""),
   indices.map (fun i => d.data.getD i []))

/-- One value of the dictionary returned by `compare_regions` (`std_sq` as in
`Stats`). -/
structure RegionStats where
  mean : ℚ
  median : ℚ
  std_sq : ℚ
  count : ℕ
deriving DecidableEq, Repr

/-- The lookup `compare_regions(column_name).get(region)`: the statistics of
one region, `none` when the region contributes no valid value (the source
then omits the key; a region absent from the data also yields an empty clean
list).  The iteration order of `list(set(...))` in the source is unspecified
but immaterial to the per-region entries modelled here. -/
def compare_regions_entry (d : Dataset) (column_name region : String) :
    Except Err (Option RegionStats) :=
  match get_column_index d column_name with
  | .error e => .error e
  | .ok i =>
    match npIndex d.cols i with
    | .error e => .error e
    | .ok j =>
      let region_values := (filter_by_region d region).2.map (fun r => r.getD j none)
      let clean_values := region_values.filterMap id
      if clean_values = [] then .ok none
      else
        .ok (some { mean := npMean clean_values,
                    median := npMedian clean_values,
                    std_sq := npStdSq clean_values,
                    count := clean_values.length })

/-- `find_outliers`.  `mean` is `np.nanmean`, `std` is `np.nanstd` (default
`ddof = 0`), both over the non-NaN values; the reported z-score is carried as
its square `z_sq = (v - mean)^2 / std_sq`.  The float comparison
`z_scores > threshold` is translated through the square: for a NaN z it is
False; for `threshold < 0` it is true of every finite z.  When every value is
NaN both moments are NaN, every z is NaN, and the result is empty.  When
`std = 0` every valid value equals the mean, its z is `0/0 = NaN`, and it is
excluded; the `(v - mean)/0 = inf` branch of the source is unreachable then
(the `0` stored in that branch of the model stands for no float). -/
def find_outliers (d : Dataset) (column_name : String) (threshold : ℚ) :
    Except Err (List (String × ℚ × ℚ)) :=
  match get_column_index d column_name with
  | .error e => .error e
  | .ok i =>
    match getColumn d i with
    | .error e => .error e
    | .ok values =>
      let clean := values.filterMap id
      if clean = [] then .ok []
      else
        let m := npMean clean
        let s2 := npStdSq clean
        .ok ((validEnum values).filterMap (fun p =>
          if s2 = 0 then
            if p.2 = m then none
            else some (d.country_names.getD p.1 "", p.2, 0)
          else
            if threshold < 0 ∨ threshold ^ 2 < (p.2 - m) ^ 2 / s2 then
              some (d.country_names.getD p.1 "", p.2, (p.2 - m) ^ 2 / s2)
            else none))

/-- `get_country_data`: `none` models the empty dict `{}` returned when
`list.index` raises ValueError; otherwise the two identity fields plus one
entry per numeric header.  The entries are kept as an association list; the
source dict would keep only the last entry of a duplicated header, a
difference no claim observes. -/
def get_country_data (d : Dataset) (country_name : String) :
    Except Err (Option (String × String × List (String × Val))) :=
  match listIndex country_name d.country_names with
  | none => .ok none
  | some idx =>
    match (d.headers.drop 2).mapM (fun h =>
        match get_column_index d h with
        | .error e => (Except.error e : Except Err (String × Val))
        | .ok ci =>
          match getCell d idx ci with
          | .error e => Except.error e
          | .ok v => Except.ok (h, v)) with
    | .error e => .error e
    | .ok numeric =>
      .ok (some (country_name, d.regional_indicators.getD idx "", numeric))

/-- `calculate_percentile_rank`.  `clean_values < country_value` is an
elementwise float comparison and every comparison with NaN is False, so a NaN
country value counts zero values below it.  With an all-NaN column the final
division is the NumPy scalar division `0 / 0`, which warns and returns NaN
rather than raising. -/
def calculate_percentile_rank (d : Dataset) (country_name column_name : String) :
    Except Err Val :=
  match get_column_index d column_name with
  | .error e => .error e
  | .ok i =>
    match listIndex country_name d.country_names with
    | none => .error .valueError
    | some country_idx =>
      match getCell d country_idx i with
      | .error e => .error e
      | .ok country_value =>
        match getColumn d i with
        | .error e => .error e
        | .ok all_values =>
          let clean_values := all_values.filterMap id
          let below := clean_values.countP (fun q =>
            match country_value with
            | none => false
            | some v => decide (q < v))
          if clean_values.length = 0 then .ok none
          else .ok (some ((below : ℚ) / clean_values.length * 100))

/-- The `get_correlation_matrix` pipeline up to the final `np.corrcoef` call:
select the named columns and drop every row with a NaN among them (the
complete-case filter `subset_data[~np.any(np.isnan(subset_data), axis=1)]`). -/
def correlation_clean_data (d : Dataset) (column_names : List String) :
    Except Err (List (List Val)) :=
  match column_names.mapM (fun nm =>
      match get_column_index d nm with
      | .error e => (Except.error e : Except Err ℕ)
      | .ok i => npIndex d.cols i) with
  | .error e => .error e
  | .ok indices =>
    let subset_data := d.data.map (fun r => indices.map (fun j => r.getD j none))
    .ok (subset_data.filter (fun r => r.all (fun c => c.isSome)))

/-- `np.corrcoef` of a 1 x k row-variable array: the single entry is
`cov / (sqrt cov * sqrt cov)` where `cov` is the `np.cov` variance with its
default `ddof = 1`.  It is NaN when `k < 2` (the variance is a division by
`k - 1 = 0`, or the mean of an empty row) or when the variance is zero
(`0 / 0`); otherwise it is exactly 1. -/
def corrcoef11 (xs : List ℚ) : Val :=
  if 2 ≤ xs.length ∧ ssd xs ≠ 0 then some 1 else none

/-- `get_correlation_matrix([column_name])`, the single-feature instance: the
complete-case rows of one selected column are exactly its non-NaN cells, and
the 1 x 1 result holds the single `np.corrcoef` entry. -/
def get_correlation_matrix1 (d : Dataset) (column_name : String) :
    Except Err Val :=
  match correlation_clean_data d [column_name] with
  | .error e => .error e
  | .ok clean_data => .ok (corrcoef11 (clean_data.flatten.filterMap id))

/-- Modelled from the spec: the population variance, divisor `N` (the square
of the population standard deviation the spec asserts the engine uses). -/
def popVarSpec (xs : List ℚ) : ℚ := ssd xs / xs.length

/-- Modelled from the spec: the sample variance, divisor `N - 1` (the square
of the sample standard deviation the spec contrasts with). -/
def sampleVarSpec (xs : List ℚ) : ℚ := ssd xs / ((xs.length : ℚ) - 1)

/-- State-passing form of `get_basic_statistics`: the method reads `self` and
never assigns to any of its fields, so the explicit-state translation pairs
the unchanged state with the result (likewise for the other eight methods
below). -/
def get_basic_statistics_st (d : Dataset) (c : String) :
    Dataset × Except Err Stats :=
  (d, get_basic_statistics d c)

/-- State-passing form of `get_top_countries`. -/
def get_top_countries_st (d : Dataset) (c : String) (n : ℕ) :
    Dataset × Except Err (List (String × ℚ)) :=
  (d, get_top_countries d c n)

/-- State-passing form of `get_bottom_countries`. -/
def get_bottom_countries_st (d : Dataset) (c : String) (n : ℕ) :
    Dataset × Except Err (List (String × ℚ)) :=
  (d, get_bottom_countries d c n)

/-- State-passing form of `filter_by_region`. -/
def filter_by_region_st (d : Dataset) (region : String) :
    Dataset × (List String × List (List Val)) :=
  (d, filter_by_region d region)

/-- State-passing form of `get_correlation_matrix` (through its data
pipeline `correlation_clean_data`; the trailing `np.corrcoef` is a pure
library routine of that cleaned sub-matrix and touches no analyzer state). -/
def get_correlation_matrix_st (d : Dataset) (cs : List String) :
    Dataset × Except Err (List (List Val)) :=
  (d, correlation_clean_data d cs)

/-- State-passing form of `compare_regions` (entry-wise). -/
def compare_regions_st (d : Dataset) (c region : String) :
    Dataset × Except Err (Option RegionStats) :=
  (d, compare_regions_entry d c region)

/-- State-passing form of `find_outliers`. -/
def find_outliers_st (d : Dataset) (c : String) (t : ℚ) :
    Dataset × Except Err (List (String × ℚ × ℚ)) :=
  (d, find_outliers d c t)

/-- State-passing form of `get_country_data`. -/
def get_country_data_st (d : Dataset) (nm : String) :
    Dataset × Except Err (Option (String × String × List (String × Val))) :=
  (d, get_country_data d nm)

/-- State-passing form of `calculate_percentile_rank`. -/
def calculate_percentile_rank_st (d : Dataset) (nm c : String) :
    Dataset × Except Err Val :=
  (d, calculate_percentile_rank d nm c)

section Helpers

/-- The mean of squared deviations is the sum of squared deviations divided
by the count: `np.std` squares to the population variance. -/
theorem npStdSq_eq_popVar (xs : List ℚ) : npStdSq xs = popVarSpec xs := by
  unfold npStdSq npMean popVarSpec ssd
  rw [List.length_map]
  rfl

theorem sum_sq_nonneg (xs : List ℚ) (c : ℚ) :
    0 ≤ (xs.map (fun x => (x - c) ^ 2)).sum := by
  apply List.sum_nonneg
  intro x hx
  rcases List.mem_map.mp hx with ⟨y, _, rfl⟩
  positivity

theorem sum_sq_eq_zero_iff (xs : List ℚ) (c : ℚ) :
    (xs.map (fun x => (x - c) ^ 2)).sum = 0 ↔ ∀ x ∈ xs, x = c := by
  induction xs with
  | nil => simp
  | cons a t ih =>
    simp only [List.map_cons, List.sum_cons, List.mem_cons]
    constructor
    · intro h x hx
      have h1 : (a - c) ^ 2 = 0 ∧ (t.map (fun x => (x - c) ^ 2)).sum = 0 := by
        constructor
        · nlinarith [sum_sq_nonneg t c, sq_nonneg (a - c)]
        · nlinarith [sum_sq_nonneg t c, sq_nonneg (a - c)]
      rcases hx with rfl | hx
      · have := pow_eq_zero_iff (n := 2) (by norm_num) |>.mp h1.1
        linarith [sub_eq_zero.mp this]
      · exact (ih.mp h1.2) x hx
    · intro h
      have ha : a = c := h a (Or.inl rfl)
      have ht : (t.map (fun x => (x - c) ^ 2)).sum = 0 :=
        ih.mpr (fun x hx => h x (Or.inr hx))
      rw [ha, ht, sub_self]
      ring

theorem sum_of_constant (xs : List ℚ) (c : ℚ) (h : ∀ x ∈ xs, x = c) :
    xs.sum = xs.length * c := by
  induction xs with
  | nil => simp
  | cons a t ih =>
    have ha : a = c := h a (List.mem_cons_self a t)
    have ht := ih (fun x hx => h x (List.mem_cons_of_mem a hx))
    simp [ha, ht]
    ring

theorem mean_of_constant (xs : List ℚ) (c : ℚ) (hne : xs ≠ [])
    (h : ∀ x ∈ xs, x = c) : npMean xs = c := by
  unfold npMean
  rw [sum_of_constant xs c h]
  have hlen : (xs.length : ℚ) ≠ 0 :=
    Nat.cast_ne_zero.mpr (List.length_pos.mpr hne).ne'
  field_simp

theorem ssd_eq_zero_iff (xs : List ℚ) :
    ssd xs = 0 ↔ ∀ x ∈ xs, x = npMean xs :=
  sum_sq_eq_zero_iff xs (npMean xs)

/-- A list has two members with different values exactly when it has at least
two entries and a nonzero sum of squared deviations. -/
theorem exists_ne_iff_ssd (xs : List ℚ) :
    (∃ x ∈ xs, ∃ y ∈ xs, x ≠ y) ↔ 2 ≤ xs.length ∧ ssd xs ≠ 0 := by
  constructor
  · rintro ⟨x, hx, y, hy, hxy⟩
    constructor
    · match xs, hx, hy with
      | [a], hx, hy =>
        simp only [List.mem_singleton] at hx hy
        exact absurd (hx.trans hy.symm) hxy
      | a :: b :: t, _, _ => simp [Nat.succ_le_succ, Nat.le_add_left]
    · intro h0
      have hall := (ssd_eq_zero_iff xs).mp h0
      exact hxy ((hall x hx).trans (hall y hy).symm)
  · rintro ⟨hlen, hssd⟩
    have hex : ∃ x ∈ xs, x ≠ npMean xs := by
      by_contra hc
      push_neg at hc
      exact hssd ((ssd_eq_zero_iff xs).mpr hc)
    rcases hex with ⟨x, hx, hxm⟩
    refine ⟨x, hx, ?_⟩
    by_contra hc
    push_neg at hc
    have hne : xs ≠ [] := by
      intro h
      rw [h] at hx
      exact absurd hx (List.not_mem_nil x)
    exact hxm (mean_of_constant xs x hne (fun y hy => (hc y hy).symm)).symm

/-- The complete-case filter of a single-column sub-matrix keeps exactly the
non-NaN cells of the column. -/
theorem single_column_clean (col : List Val) :
    (((col.map (fun v => [v])).filter
        (fun r => r.all (fun c => c.isSome))).flatten).filterMap id =
      col.filterMap id := by
  induction col with
  | nil => rfl
  | cons a t ih =>
    cases a with
    | none => simpa using ih
    | some q => simpa using ih

end Helpers

section Inversions

theorem getColumn_ok_inv (d : Dataset) (i : ℤ) (col : List Val)
    (h : getColumn d i = .ok col) :
    ∃ j, npIndex d.cols i = .ok j ∧ col = d.data.map (fun r => r.getD j none) := by
  unfold getColumn at h
  rcases hj : npIndex d.cols i with e | j
  · rw [hj] at h
    exact absurd h (by simp)
  · rw [hj] at h
    exact ⟨j, rfl, (Except.ok.injEq _ _).mp h |>.symm⟩

theorem getCell_ok_inv (d : Dataset) (k : ℕ) (i : ℤ) (v : Val)
    (h : getCell d k i = .ok v) :
    ∃ j, npIndex d.cols i = .ok j ∧ k < d.data.length ∧
      v = (d.data.getD k []).getD j none := by
  unfold getCell at h
  split at h
  · exact absurd h (by simp)
  · next j heq =>
    split at h
    · next hk => exact ⟨j, heq, hk, ((Except.ok.injEq _ _).mp h).symm⟩
    · exact absurd h (by simp)

/-- A cell read through `getCell` is a member of the column read through
`getColumn` at the same index. -/
theorem cell_mem_column (d : Dataset) (i : ℤ) (k : ℕ) (v : Val) (col : List Val)
    (hcol : getColumn d i = .ok col) (hcell : getCell d k i = .ok v) :
    v ∈ col := by
  rcases getColumn_ok_inv d i col hcol with ⟨j, hj, hcoleq⟩
  rcases getCell_ok_inv d k i v hcell with ⟨j2, hj2, hk, hveq⟩
  have hjj : j = j2 := by
    rw [hj] at hj2
    exact (Except.ok.injEq _ _).mp hj2
  subst hjj
  subst hcoleq
  have hget : d.data.getD k [] = d.data[k] := by
    rw [List.getD_eq_getElem?_getD, List.getElem?_eq_getElem hk]
    rfl
  rw [hveq, hget]
  exact List.mem_map_of_mem _ (d.data.getElem_mem hk)

/-- Inversion of a successful `load_data`. -/
theorem load_data_ok_inv (parse : String → Option ℚ) (records : List (List String))
    (d : Dataset) (h : load_data parse records = .ok d) :
    ∃ hs rest, records = hs :: rest ∧
      d.headers = hs ∧
      d.column_map = buildMap hs ∧
      d.country_names =
        (rest.filter (fun r => 2 < r.length)).map (fun r => r.getD 0 "") ∧
      d.regional_indicators =
        (rest.filter (fun r => 2 < r.length)).map (fun r => r.getD 1 "") ∧
      d.data =
        (rest.filter (fun r => 2 < r.length)).map (fun r => (r.drop 2).map parse) ∧
      d.data ≠ [] ∧
      (∀ r ∈ d.data, r.length = d.cols) := by
  unfold load_data at h
  rcases records with _ | ⟨hs, rest⟩
  · exact absurd h (by simp)
  · refine ⟨hs, rest, rfl, ?_⟩
    simp only at h
    split at h
    · exact absurd h (by simp)
    · next r0 rt hrows =>
      split at h
      · next hall =>
        have hd := (Except.ok.injEq _ _).mp h
        subst hd
        refine ⟨rfl, rfl, rfl, rfl, rfl, by rw [hrows]; simp, ?_⟩
        intro r hr
        exact of_decide_eq_true (List.all_eq_true.mp hall r hr)
      · exact absurd h (by simp)

end Inversions

section BuildMap

theorem buildMapFrom_not_mem (l : List String) (s : String) (h : s ∉ l) :
    ∀ i, buildMapFrom i l s = none := by
  induction l with
  | nil => intro i; rfl
  | cons x t ih =>
    intro i
    have hx : x ≠ s := fun hc => h (hc ▸ List.mem_cons_self x t)
    have ht : s ∉ t := fun hc => h (List.mem_cons_of_mem x hc)
    unfold buildMapFrom
    rw [ih ht (i + 1)]
    simp [hx]

/-- The first header field maps to raw position 0 when it is not duplicated
later. -/
theorem buildMap_head (a : String) (rest : List String) (h : a ∉ rest) :
    buildMap (a :: rest) a = some 0 := by
  unfold buildMap buildMapFrom
  rw [buildMapFrom_not_mem rest a h 1]
  simp

/-- The second header field maps to raw position 1 when it is not duplicated
later. -/
theorem buildMap_second (a b : String) (rest : List String) (h : b ∉ rest) :
    buildMap (a :: b :: rest) b = some 1 := by
  unfold buildMap
  show buildMapFrom 0 (a :: b :: rest) b = some 1
  unfold buildMapFrom
  unfold buildMapFrom
  rw [buildMapFrom_not_mem rest b h 2]
  simp

end BuildMap

section PercentileEval

/-- Evaluation of `calculate_percentile_rank` when the located country has a
NaN value: every float comparison with NaN is False, so zero values count as
below it. -/
theorem percentile_eval_missing (d : Dataset) (name c : String) (i : ℤ) (k : ℕ)
    (col : List Val)
    (hi : get_column_index d c = .ok i)
    (hk : listIndex name d.country_names = some k)
    (hcell : getCell d k i = .ok none)
    (hcol : getColumn d i = .ok col) :
    calculate_percentile_rank d name c =
      if (col.filterMap id).length = 0 then .ok none
      else .ok (some ((0 : ℚ) / (col.filterMap id).length * 100)) := by
  simp only [calculate_percentile_rank, hi, hk, hcell, hcol]
  have h0 : (col.filterMap id).countP (fun _ => false) = 0 := by
    simp [List.countP_eq_zero]
  rw [h0]
  norm_num

/-- Evaluation of `calculate_percentile_rank` when the located country has a
real value `v`. -/
theorem percentile_eval_value (d : Dataset) (name c : String) (i : ℤ) (k : ℕ)
    (v : ℚ) (col : List Val)
    (hi : get_column_index d c = .ok i)
    (hk : listIndex name d.country_names = some k)
    (hcell : getCell d k i = .ok (some v))
    (hcol : getColumn d i = .ok col) :
    calculate_percentile_rank d name c =
      if (col.filterMap id).length = 0 then .ok none
      else .ok (some
        (((col.filterMap id).countP (fun q => decide (q < v)) : ℚ) /
          (col.filterMap id).length * 100)) := by
  simp only [calculate_percentile_rank, hi, hk, hcell, hcol]

end PercentileEval

section ClaimC1

/-- C1 amended: on a feature column whose cells are all MISSING,
`get_basic_statistics` does not return at all: the clean array is empty and
`np.min` of an empty array raises ValueError (the claimed NaN-filled result
with `count = 0` is never produced). -/
theorem c1_all_missing_raises (d : Dataset) (c : String) (i : ℤ) (col : List Val)
    (hi : get_column_index d c = .ok i)
    (hcol : getColumn d i = .ok col)
    (hall : ∀ x ∈ col, x = none) :
    get_basic_statistics d c = .error Err.valueError := by
  have hempty : col.filterMap id = [] := by
    rw [List.filterMap_eq_nil_iff]
    intro a ha
    rw [hall a ha]
    rfl
  simp only [get_basic_statistics, hi, hcol, hempty]
  rfl

/-- Concrete dataset with a single, fully MISSING feature column. -/
def dsC1 : Dataset :=
  { headers := ["Country name", "Regional indicator", "F1"],
    country_names := ["A"],
    regional_indicators := ["R"],
    column_map := buildMap ["Country name", "Regional indicator", "F1"],
    data := [[none]],
    cols := 1 }

/-- C1 counterexample: on `dsC1`, whose feature column is entirely MISSING,
`get_basic_statistics` raises (ValueError) instead of returning `count = 0`
with NaN statistics as the claim states. -/
theorem c1_counterexample :
    get_basic_statistics dsC1 "F1" = Except.error Err.valueError := by decide

/-- A second all-MISSING dataset, for instantiating `c1_all_missing_raises`. -/
def dsC1w : Dataset :=
  { headers := ["Country name", "Regional indicator", "F1"],
    country_names := ["A", "B"],
    regional_indicators := ["R", "R"],
    column_map := buildMap ["Country name", "Regional indicator", "F1"],
    data := [[none], [none]],
    cols := 1 }

/-- Witness for `c1_all_missing_raises` at the concrete dataset `dsC1w`. -/
theorem c1_witness :
    get_basic_statistics dsC1w "F1" = Except.error Err.valueError :=
  c1_all_missing_raises dsC1w "F1" 0 [none, none]
    (by decide) (by decide) (by decide)

end ClaimC1

section ClaimC3

/-- C3 amended: for an entity whose cell for the requested feature is
MISSING, `calculate_percentile_rank` returns NaN only when the whole column
has no valid value (the NumPy scalar division 0/0); when at least one valid
value exists it returns the number 0.0, because every float comparison with
NaN is False and so zero values count as strictly below. -/
theorem c3_missing_value_rank (d : Dataset) (name c : String) (i : ℤ) (k : ℕ)
    (col : List Val)
    (hi : get_column_index d c = .ok i)
    (hk : listIndex name d.country_names = some k)
    (hcell : getCell d k i = .ok none)
    (hcol : getColumn d i = .ok col) :
    calculate_percentile_rank d name c =
      if (col.filterMap id).length = 0 then .ok none else .ok (some 0) := by
  rw [percentile_eval_missing d name c i k col hi hk hcell hcol]
  by_cases h0 : (col.filterMap id).length = 0
  · rw [if_pos h0, if_pos h0]
  · rw [if_neg h0, if_neg h0]
    norm_num

/-- Concrete dataset: entity B has a MISSING value, entity A a valid one. -/
def dsC3 : Dataset :=
  { headers := ["Country name", "Regional indicator", "F1"],
    country_names := ["A", "B"],
    regional_indicators := ["R", "R"],
    column_map := buildMap ["Country name", "Regional indicator", "F1"],
    data := [[some 1], [none]],
    cols := 1 }

/-- C3 counterexample: entity B of `dsC3` has a MISSING cell for `F1`, yet
`calculate_percentile_rank` returns the number 0.0, not NaN (which the model
writes `.ok none`). -/
theorem c3_counterexample :
    calculate_percentile_rank dsC3 "B" "F1" = Except.ok (some 0) ∧
    calculate_percentile_rank dsC3 "B" "F1" ≠ Except.ok none := by
  have h := percentile_eval_missing dsC3 "B" "F1" 0 1 [some 1, none]
    (by decide) (by decide) (by decide) (by decide)
  rw [h]
  norm_num [List.filterMap_cons]
  intro hc
  cases hc

/-- A second dataset with a MISSING cell, for instantiating
`c3_missing_value_rank`. -/
def dsC3w : Dataset :=
  { headers := ["Country name", "Regional indicator", "F1"],
    country_names := ["A", "B", "C"],
    regional_indicators := ["R", "R", "R"],
    column_map := buildMap ["Country name", "Regional indicator", "F1"],
    data := [[some 1], [none], [some 2]],
    cols := 1 }

/-- Witness for `c3_missing_value_rank` at the concrete dataset `dsC3w`. -/
theorem c3_witness :
    calculate_percentile_rank dsC3w "B" "F1" =
      if (([some 1, none, some 2] : List Val).filterMap id).length = 0
      then Except.ok none else Except.ok (some 0) :=
  c3_missing_value_rank dsC3w "B" "F1" 0 1 [some 1, none, some 2]
    (by decide) (by decide) (by decide) (by decide)

end ClaimC3

section ClaimC4

/-- C4: for an entity present with a non-missing value `v`,
`calculate_percentile_rank` returns
`100 * (number of non-missing values strictly below v) / (number of
non-missing values)`; the count of non-missing values is nonzero (the
located value itself is among them); ties are not counted as below, so an
entity whose value is a minimum gets rank 0; and an absent entity name makes
the operation fail with the entity-not-found error (ValueError from
`list.index`). -/
theorem c4_percentile_formula (d : Dataset) (name c : String) (i : ℤ) (k : ℕ)
    (v : ℚ) (col : List Val)
    (hi : get_column_index d c = .ok i)
    (hk : listIndex name d.country_names = some k)
    (hcell : getCell d k i = .ok (some v))
    (hcol : getColumn d i = .ok col) :
    calculate_percentile_rank d name c =
      .ok (some
        (100 * ((col.filterMap id).countP (fun q => decide (q < v)) : ℚ) /
          (col.filterMap id).length)) ∧
    (col.filterMap id).length ≠ 0 ∧
    ((∀ x ∈ col.filterMap id, v ≤ x) →
      calculate_percentile_rank d name c = .ok (some 0)) ∧
    (∀ nm, listIndex nm d.country_names = none →
      calculate_percentile_rank d nm c = .error Err.valueError) := by
  have hpe := percentile_eval_value d name c i k v col hi hk hcell hcol
  have hvcol : (some v : Val) ∈ col := cell_mem_column d i k (some v) col hcol hcell
  have hv : v ∈ col.filterMap id := List.mem_filterMap.mpr ⟨some v, hvcol, rfl⟩
  have hlen : (col.filterMap id).length ≠ 0 := by
    have := List.length_pos.mpr (List.ne_nil_of_mem hv)
    omega
  refine ⟨?_, hlen, ?_, ?_⟩
  · rw [hpe, if_neg hlen]
    rw [div_mul_eq_mul_div, mul_comm]
  · intro hall
    have hcnt : (col.filterMap id).countP (fun q => decide (q < v)) = 0 := by
      rw [List.countP_eq_zero]
      intro a ha
      simpa using not_lt.mpr (hall a ha)
    rw [hpe, if_neg hlen, hcnt]
    norm_num
  · intro nm hnone
    simp only [calculate_percentile_rank, hi, hnone]

/-- Concrete dataset for the percentile formula: values 1, 2, 2. -/
def dsC4 : Dataset :=
  { headers := ["Country name", "Regional indicator", "F1"],
    country_names := ["A", "B", "C"],
    regional_indicators := ["R", "R", "R"],
    column_map := buildMap ["Country name", "Regional indicator", "F1"],
    data := [[some 1], [some 2], [some 2]],
    cols := 1 }

/-- Witness for `c4_percentile_formula` at `dsC4` and entity B (value 2,
tied with C): rank formula, nonzero count, tie handling and the
absent-entity failure are all instantiated. -/
theorem c4_witness :
    calculate_percentile_rank dsC4 "B" "F1" =
      .ok (some
        (100 * ((([some 1, some 2, some 2] : List Val).filterMap id).countP
            (fun q => decide (q < 2)) : ℚ) /
          (([some 1, some 2, some 2] : List Val).filterMap id).length)) ∧
    (([some 1, some 2, some 2] : List Val).filterMap id).length ≠ 0 ∧
    ((∀ x ∈ ([some 1, some 2, some 2] : List Val).filterMap id, 2 ≤ x) →
      calculate_percentile_rank dsC4 "B" "F1" = .ok (some 0)) ∧
    (∀ nm, listIndex nm dsC4.country_names = none →
      calculate_percentile_rank dsC4 nm "F1" = .error Err.valueError) :=
  c4_percentile_formula dsC4 "B" "F1" 0 1 2 [some 1, some 2, some 2]
    (by decide) (by decide) (by decide) (by decide)

end ClaimC4

section ClaimC8

/-- C8: `calculate_percentile_rank` is monotone in the entity value: two
present entities (first occurrences of their names) with non-missing values
`v1 < v2` on the same feature receive ranks `r1 ≤ r2`. -/
theorem c8_rank_monotone (d : Dataset) (e1 e2 c : String) (i : ℤ)
    (k1 k2 : ℕ) (v1 v2 : ℚ) (col : List Val)
    (hi : get_column_index d c = .ok i)
    (hcol : getColumn d i = .ok col)
    (hk1 : listIndex e1 d.country_names = some k1)
    (hc1 : getCell d k1 i = .ok (some v1))
    (hk2 : listIndex e2 d.country_names = some k2)
    (hc2 : getCell d k2 i = .ok (some v2))
    (hv : v1 < v2) :
    ∃ r1 r2 : ℚ,
      calculate_percentile_rank d e1 c = .ok (some r1) ∧
      calculate_percentile_rank d e2 c = .ok (some r2) ∧
      r1 ≤ r2 := by
  have h1 := percentile_eval_value d e1 c i k1 v1 col hi hk1 hc1 hcol
  have h2 := percentile_eval_value d e2 c i k2 v2 col hi hk2 hc2 hcol
  have hvcol : (some v1 : Val) ∈ col := cell_mem_column d i k1 (some v1) col hcol hc1
  have hv1 : v1 ∈ col.filterMap id := List.mem_filterMap.mpr ⟨some v1, hvcol, rfl⟩
  have hlen : (col.filterMap id).length ≠ 0 := by
    have := List.length_pos.mpr (List.ne_nil_of_mem hv1)
    omega
  rw [h1, if_neg hlen]
  rw [h2, if_neg hlen]
  refine ⟨_, _, rfl, rfl, ?_⟩
  have hcnt : (col.filterMap id).countP (fun q => decide (q < v1)) ≤
      (col.filterMap id).countP (fun q => decide (q < v2)) := by
    apply List.countP_mono_left
    intro x _ hx
    exact decide_eq_true (lt_trans (of_decide_eq_true hx) hv)
  apply mul_le_mul_of_nonneg_right _ (by norm_num : (0 : ℚ) ≤ 100)
  have hpos : (0 : ℚ) < (col.filterMap id).length := by
    exact_mod_cast Nat.pos_of_ne_zero hlen
  exact (div_le_div_right hpos).mpr (Nat.cast_le.mpr hcnt)

/-- Concrete dataset for monotonicity: values 1 < 2 < 3. -/
def dsC8 : Dataset :=
  { headers := ["Country name", "Regional indicator", "F1"],
    country_names := ["A", "B", "C"],
    regional_indicators := ["R", "R", "R"],
    column_map := buildMap ["Country name", "Regional indicator", "F1"],
    data := [[some 1], [some 3], [some 2]],
    cols := 1 }

/-- Witness for `c8_rank_monotone` at `dsC8`, entities A (value 1) and C
(value 2). -/
theorem c8_witness :
    ∃ r1 r2 : ℚ,
      calculate_percentile_rank dsC8 "A" "F1" = .ok (some r1) ∧
      calculate_percentile_rank dsC8 "C" "F1" = .ok (some r2) ∧
      r1 ≤ r2 :=
  c8_rank_monotone dsC8 "A" "C" "F1" 0 0 2 1 2 [some 1, some 3, some 2]
    (by decide) (by decide) (by decide) (by decide) (by decide) (by decide)
    (by norm_num)

end ClaimC8

section ClaimC5

/-- C5 amended: with a single known feature, `get_correlation_matrix` reduces
to the single `np.corrcoef` entry over the non-missing values of that
column, and that entry is 1.0 exactly when two of those values differ; with
only one complete row, or a constant column, the entry is NaN (np.cov with
its default ddof = 1 divides by k - 1, and a zero variance gives 0/0), not
1.0. -/
theorem c5_single_feature_corr (d : Dataset) (c : String) (i : ℤ) (col : List Val)
    (hi : get_column_index d c = .ok i)
    (hcol : getColumn d i = .ok col) :
    get_correlation_matrix1 d c = .ok (corrcoef11 (col.filterMap id)) ∧
    (get_correlation_matrix1 d c = .ok (some 1) ↔
      ∃ x ∈ col.filterMap id, ∃ y ∈ col.filterMap id, x ≠ y) := by
  rcases getColumn_ok_inv d i col hcol with ⟨j, hj, hcoleq⟩
  have hpipe : get_correlation_matrix1 d c = .ok (corrcoef11 (col.filterMap id)) := by
    simp only [get_correlation_matrix1, correlation_clean_data, List.mapM, List.mapM.loop,
      hi, hj, bind, Except.bind, pure, Except.pure]
    have hmm : d.data.map (fun r => [j].reverse.map (fun j2 => r.getD j2 none)) =
        col.map (fun v => [v]) := by
      rw [hcoleq, List.map_map]
      rfl
    rw [hmm, single_column_clean col]
  refine ⟨hpipe, ?_⟩
  rw [hpipe]
  constructor
  · intro h
    have hcc : corrcoef11 (col.filterMap id) = some 1 := (Except.ok.injEq _ _).mp h
    unfold corrcoef11 at hcc
    by_cases hcond : 2 ≤ (col.filterMap id).length ∧ ssd (col.filterMap id) ≠ 0
    · exact (exists_ne_iff_ssd (col.filterMap id)).mpr hcond
    · rw [if_neg hcond] at hcc
      cases hcc
  · intro h
    have hcond := (exists_ne_iff_ssd (col.filterMap id)).mp h
    unfold corrcoef11
    rw [if_pos hcond]

/-- Concrete dataset with exactly one complete row for its feature. -/
def dsC5 : Dataset :=
  { headers := ["Country name", "Regional indicator", "F1"],
    country_names := ["A"],
    regional_indicators := ["R"],
    column_map := buildMap ["Country name", "Regional indicator", "F1"],
    data := [[some 1]],
    cols := 1 }

/-- C5 counterexample: `dsC5` has one complete row for `F1`, yet the
single-feature correlation matrix entry is NaN (modelled `none`), not 1.0:
np.cov of one observation divides by zero at ddof = 1. -/
theorem c5_counterexample :
    get_correlation_matrix1 dsC5 "F1" = Except.ok none ∧
    (dsC5.data.filter (fun r => r.all (fun cc => cc.isSome))).length = 1 ∧
    get_correlation_matrix1 dsC5 "F1" ≠ Except.ok (some 1) := by
  refine ⟨by decide, by decide, by decide⟩

/-- Concrete dataset with two differing values, for instantiating
`c5_single_feature_corr`. -/
def dsC5w : Dataset :=
  { headers := ["Country name", "Regional indicator", "F1"],
    country_names := ["A", "B"],
    regional_indicators := ["R", "R"],
    column_map := buildMap ["Country name", "Regional indicator", "F1"],
    data := [[some 1], [some 2]],
    cols := 1 }

/-- Witness for `c5_single_feature_corr` at `dsC5w`. -/
theorem c5_witness :
    get_correlation_matrix1 dsC5w "F1" =
      .ok (corrcoef11 (([some 1, some 2] : List Val).filterMap id)) ∧
    (get_correlation_matrix1 dsC5w "F1" = .ok (some 1) ↔
      ∃ x ∈ ([some 1, some 2] : List Val).filterMap id,
        ∃ y ∈ ([some 1, some 2] : List Val).filterMap id, x ≠ y) :=
  c5_single_feature_corr dsC5w "F1" 0 [some 1, some 2] (by decide) (by decide)

end ClaimC5

section ClaimC2

/-- Every member of `validEnum col` is a genuine (row, value) pair of the
column: position `p.1` of `col` holds the non-missing value `p.2`. -/
theorem validEnum_mem (col : List Val) (p : ℕ × ℚ) (hp : p ∈ validEnum col) :
    col[p.1]? = some (some p.2) := by
  unfold validEnum at hp
  rcases List.mem_filterMap.mp hp with ⟨a, ha, hfa⟩
  rcases a with ⟨k, v⟩
  cases v with
  | none => cases hfa
  | some q =>
    simp only [Option.map_some] at hfa
    cases hfa
    exact List.mem_enum_iff_getElem?.mp ha

/-- C2 amended: `get_bottom_countries` and `get_top_countries` drop MISSING
cells, sort the remaining (row, value) pairs by value (ascending for bottom,
descending for top), return the first `n` (all of them when fewer than `n`
exist, without error) — but the tie order differs between the two: bottom
keeps tied entities in Dataset row order, while top, which reverses the
ascending argsort, emits tied entities in reverse row order.  (The model
fixes the stable argsort outcome; NumPy quicksort coincides with it below 16
elements and on tie-free columns, and is implementation-defined otherwise.)
The list `L` below is the ascending stable sort: sorted under `argsortLe`
(value ascending, ties by row ascending), a permutation of the valid pairs,
bottom returns the first `n` of `L` and top the first `n` of its reverse. -/
theorem c2_ranking (d : Dataset) (c : String) (n : ℕ) (i : ℤ) (col : List Val)
    (hi : get_column_index d c = .ok i)
    (hcol : getColumn d i = .ok col) :
    ∃ L : List (ℕ × ℚ),
      L.Perm (validEnum col) ∧
      L.Sorted argsortLe ∧
      (∀ p ∈ validEnum col, col[p.1]? = some (some p.2)) ∧
      get_bottom_countries d c n =
        .ok ((L.take n).map (fun p => (d.country_names.getD p.1 "", p.2))) ∧
      get_top_countries d c n =
        .ok ((L.reverse.take n).map (fun p => (d.country_names.getD p.1 "", p.2))) ∧
      (L.take n).length = min n (validEnum col).length ∧
      (L.reverse.take n).length = min n (validEnum col).length ∧
      ((validEnum col).length ≤ n → L.take n = L ∧ L.reverse.take n = L.reverse) := by
  refine ⟨sortedValid col, List.perm_insertionSort argsortLe (validEnum col),
    List.sorted_insertionSort argsortLe (validEnum col),
    fun p hp => validEnum_mem col p hp, ?_, ?_, ?_, ?_, ?_⟩
  · simp only [get_bottom_countries, hi, hcol, bottomPairs]
  · simp only [get_top_countries, hi, hcol, topPairs]
  · have hL : (sortedValid col).length = (validEnum col).length :=
      (List.perm_insertionSort argsortLe (validEnum col)).length_eq
    rw [List.length_take, hL]
  · have hL : (sortedValid col).length = (validEnum col).length :=
      (List.perm_insertionSort argsortLe (validEnum col)).length_eq
    rw [List.length_take, List.length_reverse, hL]
  · intro hle
    have hL : (sortedValid col).length = (validEnum col).length :=
      (List.perm_insertionSort argsortLe (validEnum col)).length_eq
    constructor
    · exact List.take_of_length_le (by omega)
    · exact List.take_of_length_le (by rw [List.length_reverse]; omega)

/-- Concrete dataset with two rows tied on the feature value. -/
def dsC2 : Dataset :=
  { headers := ["Country name", "Regional indicator", "F1"],
    country_names := ["A", "B"],
    regional_indicators := ["R", "R"],
    column_map := buildMap ["Country name", "Regional indicator", "F1"],
    data := [[some 1], [some 1]],
    cols := 1 }

/-- C2 counterexample: on `dsC2` (rows A then B, equal values),
`get_bottom_countries` keeps row order but `get_top_countries` emits the tie
in reverse row order, contradicting the claim that both preserve it. -/
theorem c2_counterexample :
    get_bottom_countries dsC2 "F1" 2 = Except.ok [("A", 1), ("B", 1)] ∧
    get_top_countries dsC2 "F1" 2 = Except.ok [("B", 1), ("A", 1)] ∧
    get_top_countries dsC2 "F1" 2 ≠ Except.ok [("A", 1), ("B", 1)] :=
  ⟨by decide, by decide, by decide⟩

/-- Concrete dataset with a MISSING cell, a tie and a larger `n`, for
instantiating `c2_ranking`. -/
def dsC2w : Dataset :=
  { headers := ["Country name", "Regional indicator", "F1"],
    country_names := ["A", "B", "C", "D"],
    regional_indicators := ["R", "R", "R", "R"],
    column_map := buildMap ["Country name", "Regional indicator", "F1"],
    data := [[some 2], [none], [some 1], [some 1]],
    cols := 1 }

/-- Witness for `c2_ranking` at `dsC2w` with `n = 10` larger than the number
of valid values. -/
theorem c2_witness :
    ∃ L : List (ℕ × ℚ),
      L.Perm (validEnum [some 2, none, some 1, some 1]) ∧
      L.Sorted argsortLe ∧
      (∀ p ∈ validEnum [some 2, none, some 1, some 1],
        ([some 2, none, some 1, some 1] : List Val)[p.1]? = some (some p.2)) ∧
      get_bottom_countries dsC2w "F1" 10 =
        .ok ((L.take 10).map (fun p => (dsC2w.country_names.getD p.1 "", p.2))) ∧
      get_top_countries dsC2w "F1" 10 =
        .ok ((L.reverse.take 10).map (fun p => (dsC2w.country_names.getD p.1 "", p.2))) ∧
      (L.take 10).length = min 10 (validEnum [some 2, none, some 1, some 1]).length ∧
      (L.reverse.take 10).length =
        min 10 (validEnum [some 2, none, some 1, some 1]).length ∧
      ((validEnum [some 2, none, some 1, some 1]).length ≤ 10 →
        L.take 10 = L ∧ L.reverse.take 10 = L.reverse) :=
  c2_ranking dsC2w "F1" 10 0 [some 2, none, some 1, some 1] (by decide) (by decide)

end ClaimC2

section ClaimC6

/-- C6 amended: for every input the Loader accepts, the name and label
arrays are parallel to the matrix rows; but the claimed equality
`len(featureNames) = matrix.columnCount` is not checked by the loader and
holds only when every admitted row has exactly as many fields as the header
(the loader accepts any uniform row width, so a row wider or narrower than
the header breaks the equality without an error). -/
theorem c6_loader_invariants (parse : String → Option ℚ)
    (records : List (List String)) (d : Dataset)
    (h : load_data parse records = .ok d) :
    d.country_names.length = d.data.length ∧
    d.regional_indicators.length = d.data.length ∧
    (∀ r ∈ d.data, r.length = d.cols) ∧
    ((∀ row ∈ records.tail, 2 < row.length → row.length = (records.headD []).length) →
      (d.headers.drop 2).length = d.cols) := by
  rcases load_data_ok_inv parse records d h with
    ⟨hs, rest, hrec, hhead, hmap, hnames, hregs, hdata, hne, hlen⟩
  refine ⟨by rw [hnames, hdata]; simp, by rw [hregs, hdata]; simp, hlen, ?_⟩
  intro huni
  have had : ∃ a t, rest.filter (fun r => 2 < r.length) = a :: t := by
    rcases hfa : rest.filter (fun r => 2 < r.length) with _ | ⟨a, t⟩
    · rw [hdata, hfa] at hne
      simp at hne
    · exact ⟨a, t, hfa⟩
  rcases had with ⟨a, t, hfa⟩
  have hamem : a ∈ rest ∧ 2 < a.length := by
    have hm : a ∈ rest.filter (fun r => 2 < r.length) := by
      rw [hfa]
      exact List.mem_cons_self a t
    have h2 := List.mem_filter.mp hm
    exact ⟨h2.1, of_decide_eq_true h2.2⟩
  have hrow : ((a.drop 2).map parse) ∈ d.data := by
    rw [hdata, hfa]
    exact List.mem_map_of_mem _ (List.mem_cons_self a t)
  have hcols : ((a.drop 2).map parse).length = d.cols := hlen _ hrow
  have htail : records.tail = rest := by rw [hrec]; rfl
  have hheadD : records.headD [] = hs := by rw [hrec]; rfl
  have halen : a.length = hs.length := by
    have hh := huni a (by rw [htail]; exact hamem.1) hamem.2
    rw [hheadD] at hh
    exact hh
  rw [List.length_map, List.length_drop] at hcols
  rw [hhead, List.length_drop]
  omega

/-- A concrete numeric field parser for the closed instances below: it
parses the digit fields they use and fails on anything else, as `float(...)`
would. -/
def parseQ (s : String) : Option ℚ :=
  if s = "1" then some 1
  else if s = "2" then some 2
  else if s = "3" then some 3
  else none

/-- Records whose only data row is wider than the header. -/
def recC6 : List (List String) := [["H0", "H1", "F1"], ["x", "y", "1", "2"]]

/-- The dataset `load_data` builds from `recC6`. -/
def loadedC6 : Dataset :=
  match load_data parseQ recC6 with
  | .ok d => d
  | .error _ =>
    { headers := [], country_names := [], regional_indicators := [],
      column_map := fun _ => none, data := [], cols := 0 }

/-- C6 counterexample: the loader accepts `recC6` without error, yet the
header names one feature while the matrix has two columns. -/
theorem c6_counterexample :
    load_data parseQ recC6 = Except.ok loadedC6 ∧
    (loadedC6.headers.drop 2).length = 1 ∧
    loadedC6.cols = 2 ∧
    (loadedC6.headers.drop 2).length ≠ loadedC6.cols :=
  ⟨rfl, by decide, by decide, by decide⟩

/-- Well-formed records: every data row as wide as the header. -/
def recC6w : List (List String) :=
  [["Country name", "Regional indicator", "F1"], ["A", "R", "1"], ["B", "R", "2"]]

/-- The dataset `load_data` builds from `recC6w`. -/
def loadedC6w : Dataset :=
  match load_data parseQ recC6w with
  | .ok d => d
  | .error _ =>
    { headers := [], country_names := [], regional_indicators := [],
      column_map := fun _ => none, data := [], cols := 0 }

/-- Witness for `c6_loader_invariants` at the concrete records `recC6w`. -/
theorem c6_witness :
    loadedC6w.country_names.length = loadedC6w.data.length ∧
    loadedC6w.regional_indicators.length = loadedC6w.data.length ∧
    (∀ r ∈ loadedC6w.data, r.length = loadedC6w.cols) ∧
    ((∀ row ∈ recC6w.tail, 2 < row.length → row.length = (recC6w.headD []).length) →
      (loadedC6w.headers.drop 2).length = loadedC6w.cols) :=
  c6_loader_invariants parseQ recC6w loadedC6w rfl

end ClaimC6

section ClaimC9

/-- C9: on a loaded dataset, `get_column_index` does not fail on the two
identity header names (when they are not duplicated further right, their
dict entries keep raw positions 0 and 1): it returns the negative offsets
-2 and -1.  NumPy then treats a negative column index as end-relative, so
with at least 2 numeric columns every column read at those offsets silently
yields the last-but-one and last numeric columns instead of raising. -/
theorem c9_identity_columns (parse : String → Option ℚ)
    (records : List (List String)) (d : Dataset) (a b : String) (hs : List String)
    (h : load_data parse records = .ok d)
    (hhead : d.headers = a :: b :: hs)
    (ha : a ∉ b :: hs) (hb : b ∉ hs) :
    get_column_index d a = .ok (-2) ∧
    get_column_index d b = .ok (-1) ∧
    (2 ≤ d.cols →
      getColumn d (-2) = getColumn d ((d.cols : ℤ) - 2) ∧
      getColumn d (-1) = getColumn d ((d.cols : ℤ) - 1)) := by
  rcases load_data_ok_inv parse records d h with
    ⟨hs0, rest, hrec, hhead0, hmap, _, _, _, _, _⟩
  have hmap2 : d.column_map = buildMap (a :: b :: hs) := by
    rw [hmap, ← hhead0, hhead]
  have hca : d.column_map a = some 0 := by
    rw [hmap2]
    exact buildMap_head a (b :: hs) ha
  have hcb : d.column_map b = some 1 := by
    rw [hmap2]
    exact buildMap_second a b hs hb
  have key : ∀ k : ℤ, 0 < k → k ≤ (d.cols : ℤ) →
      npIndex d.cols (-k) = npIndex d.cols ((d.cols : ℤ) - k) := by
    intro k hk1 hk2
    unfold npIndex
    rw [if_neg (show ¬(0 : ℤ) ≤ -k by omega),
      if_pos (show (0 : ℤ) ≤ (d.cols : ℤ) + -k by omega),
      if_pos (show (0 : ℤ) ≤ (d.cols : ℤ) - k by omega),
      if_pos (show (d.cols : ℤ) - k < (d.cols : ℤ) by omega)]
    congr 1
  refine ⟨?_, ?_, ?_⟩
  · norm_num [get_column_index, hca]
  · norm_num [get_column_index, hcb]
  · intro hc
    have hc2 : (2 : ℤ) ≤ (d.cols : ℤ) := by exact_mod_cast hc
    constructor
    · unfold getColumn
      rw [key 2 (by norm_num) hc2]
    · unfold getColumn
      rw [key 1 (by norm_num) (by omega)]

/-- Records with the standard identity headers and two numeric columns. -/
def recC9 : List (List String) :=
  [["Country name", "Regional indicator", "F1", "F2"],
   ["A", "R", "1", "2"], ["B", "R", "2", "3"]]

/-- The dataset `load_data` builds from `recC9`. -/
def loadedC9 : Dataset :=
  match load_data parseQ recC9 with
  | .ok d => d
  | .error _ =>
    { headers := [], country_names := [], regional_indicators := [],
      column_map := fun _ => none, data := [], cols := 0 }

/-- Witness for `c9_identity_columns` at the concrete records `recC9`. -/
theorem c9_witness :
    get_column_index loadedC9 "Country name" = .ok (-2) ∧
    get_column_index loadedC9 "Regional indicator" = .ok (-1) ∧
    (2 ≤ loadedC9.cols →
      getColumn loadedC9 (-2) = getColumn loadedC9 ((loadedC9.cols : ℤ) - 2) ∧
      getColumn loadedC9 (-1) = getColumn loadedC9 ((loadedC9.cols : ℤ) - 1)) :=
  c9_identity_columns parseQ recC9 loadedC9 "Country name" "Regional indicator"
    ["F1", "F2"] rfl (by decide) (by decide) (by decide)

end ClaimC9

section ClaimC7

/-- C7: none of the nine query operations mutates the Dataset.  The source
methods only read `self.headers`, `self.country_names`,
`self.regional_indicators`, `self.column_map` and `self.data` — no statement
in any of them assigns to a field of `self` — so in the state-passing
translation the state component of every result is the input dataset,
whatever the arguments. -/
theorem c7_operations_pure (d : Dataset) (c region nm : String)
    (cs : List String) (n : ℕ) (t : ℚ) :
    (get_basic_statistics_st d c).1 = d ∧
    (get_top_countries_st d c n).1 = d ∧
    (get_bottom_countries_st d c n).1 = d ∧
    (filter_by_region_st d region).1 = d ∧
    (get_correlation_matrix_st d cs).1 = d ∧
    (compare_regions_st d c region).1 = d ∧
    (find_outliers_st d c t).1 = d ∧
    (get_country_data_st d nm).1 = d ∧
    (calculate_percentile_rank_st d nm c).1 = d :=
  ⟨rfl, rfl, rfl, rfl, rfl, rfl, rfl, rfl, rfl⟩

end ClaimC7

section ClaimC10

/-- C10: every standard deviation the engine computes is the population one,
divisor `N` (NumPy default `ddof = 0`), not the sample one, divisor `N - 1`:
the std square reported by `get_basic_statistics` and by each region entry of
`compare_regions` equals `popVarSpec` of the respective clean values (sum of
squared deviations over the count), the z-score square of every reported
outlier has `popVarSpec` of the clean column as its denominator, and the
population and sample variances genuinely differ (shown at the list [0, 1]:
1/4 against 1/2). -/
theorem c10_population_std (d : Dataset) (c region : String) (t : ℚ) (i : ℤ)
    (col : List Val)
    (hi : get_column_index d c = .ok i)
    (hcol : getColumn d i = .ok col) :
    (∀ s, get_basic_statistics d c = .ok s →
      s.std_sq = popVarSpec (col.filterMap id) ∧
      s.count = (col.filterMap id).length) ∧
    (∀ j g, npIndex d.cols i = .ok j →
      compare_regions_entry d c region = .ok (some g) →
      g.std_sq = popVarSpec
        (((filter_by_region d region).2.map (fun r => r.getD j none)).filterMap id) ∧
      g.count =
        (((filter_by_region d region).2.map (fun r => r.getD j none)).filterMap id).length) ∧
    (∀ l, find_outliers d c t = .ok l →
      ∀ p ∈ l, p.2.2 * popVarSpec (col.filterMap id) =
        (p.2.1 - npMean (col.filterMap id)) ^ 2) ∧
    popVarSpec [0, 1] ≠ sampleVarSpec [0, 1] := by
  refine ⟨?_, ?_, ?_, ?_⟩
  · intro s hs
    simp only [get_basic_statistics, hi, hcol] at hs
    split at hs
    · cases hs
    · have h2 := (Except.ok.injEq _ _).mp hs
      rw [← h2]
      exact ⟨npStdSq_eq_popVar _, rfl⟩
  · intro j g hj hg
    simp only [compare_regions_entry, hi, hj] at hg
    split at hg
    · cases (Except.ok.injEq _ _).mp hg
    · have h2 := (Except.ok.injEq _ _).mp hg
      have h3 := Option.some.injEq _ _ ▸ h2
      cases h2
      exact ⟨npStdSq_eq_popVar _, rfl⟩
  · intro l hl p hp
    simp only [find_outliers, hi, hcol] at hl
    split at hl
    · next hemp =>
      cases hl
      cases hp
    · next hemp =>
      cases hl
      rcases List.mem_filterMap.mp hp with ⟨q, hq, hfq⟩
      have hqclean : q.2 ∈ col.filterMap id := by
        have hcq := validEnum_mem col q hq
        exact List.mem_filterMap.mpr ⟨some q.2, List.getElem?_mem hcq, rfl⟩
      by_cases hs2 : npStdSq (col.filterMap id) = 0
      · rw [if_pos hs2] at hfq
        have hall : ∀ x ∈ col.filterMap id, x = npMean (col.filterMap id) := by
          rw [← ssd_eq_zero_iff]
          have := npStdSq_eq_popVar (col.filterMap id)
          unfold popVarSpec at this
          rw [this] at hs2
          have hlenq : ((col.filterMap id).length : ℚ) ≠ 0 := by
            have := List.length_pos.mpr (List.ne_nil_of_mem hqclean)
            exact_mod_cast Nat.pos_iff_ne_zero.mp this
          field_simp at hs2
          exact hs2
        have hqm : q.2 = npMean (col.filterMap id) := hall q.2 hqclean
        rw [if_pos hqm] at hfq
        cases hfq
      · rw [if_neg hs2] at hfq
        split at hfq
        · cases hfq
          have hvar := npStdSq_eq_popVar (col.filterMap id)
          rw [← hvar]
          exact div_mul_cancel₀ _ hs2
        · cases hfq
  · norm_num [popVarSpec, sampleVarSpec, ssd, npMean]

/-- Concrete dataset for the population-variance witness: values 0 and 1. -/
def dsC10 : Dataset :=
  { headers := ["Country name", "Regional indicator", "F1"],
    country_names := ["A", "B"],
    regional_indicators := ["R", "R"],
    column_map := buildMap ["Country name", "Regional indicator", "F1"],
    data := [[some 0], [some 1]],
    cols := 1 }

/-- Witness for `c10_population_std` at `dsC10`. -/
theorem c10_witness :
    (∀ s, get_basic_statistics dsC10 "F1" = .ok s →
      s.std_sq = popVarSpec (([some 0, some 1] : List Val).filterMap id) ∧
      s.count = (([some 0, some 1] : List Val).filterMap id).length) ∧
    (∀ j g, npIndex dsC10.cols 0 = .ok j →
      compare_regions_entry dsC10 "F1" "R" = .ok (some g) →
      g.std_sq = popVarSpec
        (((filter_by_region dsC10 "R").2.map (fun r => r.getD j none)).filterMap id) ∧
      g.count =
        (((filter_by_region dsC10 "R").2.map (fun r => r.getD j none)).filterMap id).length) ∧
    (∀ l, find_outliers dsC10 "F1" 2 = .ok l →
      ∀ p ∈ l, p.2.2 * popVarSpec (([some 0, some 1] : List Val).filterMap id) =
        (p.2.1 - npMean (([some 0, some 1] : List Val).filterMap id)) ^ 2) ∧
    popVarSpec [0, 1] ≠ sampleVarSpec [0, 1] :=
  c10_population_std dsC10 "F1" "R" 2 0 [some 0, some 1] (by decide) (by decide)

end ClaimC10
